import Mathlib

/-!
Verification of the saasfactory CLI wizard against its specification.

This file gives a shallow embedding, in Lean 4, of the parts of the
TypeScript source that the specification's claims are about:

* `src/cli/prompts.ts` / the newer prompts module: `sanitizeProjectName`,
  `checkEscForBack`, the prompt loops (`promptName`, `promptDescription`);
* `src/ai/idea-discovery.ts`: `discoverSaasIdeas`, `normalizeIdea`,
  `createFallbackIdeas`;
* `src/ai/claude-cli.ts`: the `close` handler of
  `claudeGenerateWithProgress`;
* `src/utils/process-manager.ts`: `trackProcess` / `killAllProcesses`;
* `src/core/context.ts`: `createDefaultContext`, the project-name schema
  pattern;
* `src/cli/index.ts`: the create-command wizard state machine.

Pure functions are translated to Lean functions; the stateful wizard loop
becomes an explicit step function over a state record, driven by a script
of prompt outcomes; external effects (the AI subprocess, JSON parsing of
its output) are parameters of the embedding, mirroring the spec's view of
them as opaque collaborators.  JavaScript strings are Lean `String`s,
`Date.now()` timestamps are `Nat` milliseconds, and stringly-typed enum
fields (`saasType`, `pricing.type`, verdicts) are kept as `String`s,
exactly as the JavaScript runtime treats them.
-/

namespace SaasFactory

/-! ## String helpers shared by several modules -/

/-- Lowercase ASCII letters and digits: the character class `[a-z0-9]`
used by `sanitizeProjectName` and by the `ProjectContextSchema` name
regex `^[a-z0-9-]+$`. -/
def isAlnumLower (c : Char) : Bool :=
  ('a' ≤ c && c ≤ 'z') || ('0' ≤ c && c ≤ '9')

/-- ASCII lowercasing, the behaviour of JavaScript
`String.prototype.toLowerCase` on the ASCII range (the only range whose
image interacts with the `[a-z0-9]` character class below). -/
def jsToLower (c : Char) : Char :=
  if 'A' ≤ c && c ≤ 'Z' then Char.ofNat (c.toNat + 32) else c

/-- Replace every maximal run of characters outside `[a-z0-9]` by a single
dash: the effect of `.replace(/[^a-z0-9]+/g, '-')`.  One structural pass;
the flag records whether the scan is inside a non-alphanumeric run. -/
def collapseNonAlnumAux : Bool → List Char → List Char
  | _, [] => []
  | inRun, c :: cs =>
    if isAlnumLower c then c :: collapseNonAlnumAux false cs
    else if inRun then collapseNonAlnumAux true cs
    else '-' :: collapseNonAlnumAux true cs

/-- The whole-list non-alphanumeric-run replacement. -/
def collapseNonAlnum (l : List Char) : List Char := collapseNonAlnumAux false l

/-- Replace every maximal run of dashes by a single dash: the effect of
the dash-run to single-dash replacement (regex `-+` to `-`), again as one
structural pass. -/
def squeezeDashesAux : Bool → List Char → List Char
  | _, [] => []
  | inRun, c :: cs =>
    if c = '-' then
      if inRun then squeezeDashesAux true cs
      else '-' :: squeezeDashesAux true cs
    else c :: squeezeDashesAux false cs

/-- The whole-list dash-run replacement. -/
def squeezeDashes (l : List Char) : List Char := squeezeDashesAux false l

/-- Remove one leading dash, the `^-` alternative of
`.replace(/^-|-$/g, '')`. -/
def dropLeadDash : List Char → List Char
  | [] => []
  | c :: t => if c = '-' then t else c :: t

/-- Remove one trailing dash, the `-$` alternative of
`.replace(/^-|-$/g, '')`. -/
def dropTrailDash : List Char → List Char
  | [] => []
  | [c] => if c = '-' then [] else [c]
  | c :: d :: rest => c :: dropTrailDash (d :: rest)

/-- Embedding of `sanitizeProjectName` (prompts module): lowercase, turn
non-alphanumeric runs into single dashes, squeeze dash runs, strip one
leading and one trailing dash. -/
def sanitizeProjectName (s : String) : String :=
  ⟨dropTrailDash (dropLeadDash (squeezeDashes (collapseNonAlnum (s.data.map jsToLower))))⟩

/-- Whitespace test backing the embedding of JavaScript
`String.prototype.trim` (the whitespace characters that occur in this
program's data). -/
def isJsWhitespace (c : Char) : Bool :=
  c = ' ' || c = '\t' || c = '\n' || c = '\r'

/-- Trim both ends of a character list. -/
def trimChars (l : List Char) : List Char :=
  ((l.dropWhile isJsWhitespace).reverse.dropWhile isJsWhitespace).reverse

/-- JavaScript `s.trim()`. -/
def jsTrim (s : String) : String := ⟨trimChars s.data⟩

/-- JavaScript `s.split(sep)` for a one-character separator, on character
lists. -/
def splitOnCharAux (sep : Char) : List Char → List (List Char)
  | [] => [[]]
  | c :: cs =>
    let r := splitOnCharAux sep cs
    if c = sep then [] :: r
    else (c :: r.headD []) :: r.tail

/-- JavaScript `s.split(sep)` for a one-character separator. -/
def jsSplit (s : String) (sep : Char) : List String :=
  (splitOnCharAux sep s.data).map (fun l => (⟨l⟩ : String))

/-- Embedding of the `ProjectContextSchema.name` validator
`z.string().min(1).regex(/^[a-z0-9-]+$/)` from `src/core/context.ts`. -/
def namePatternOk (s : String) : Bool :=
  s.data ≠ [] && s.data.all (fun c => isAlnumLower c || c = '-')

/-! ### Shape of sanitized names -/

/-- Characters a sanitized name may contain. -/
def goodChar (c : Char) : Bool := isAlnumLower c || c = '-'

/-- No two adjacent dashes. -/
def NoDD (l : List Char) : Prop :=
  l.Chain' (fun a b => ¬(a = '-' ∧ b = '-'))

/-- Heads that are not a dash (vacuously true for `[]`). -/
def headNotDash (l : List Char) : Prop :=
  ∀ c ∈ l.head?, c ≠ '-'

/-- Last characters that are not a dash (vacuously true for `[]`). -/
def lastNotDash (l : List Char) : Prop :=
  ∀ c ∈ l.getLast?, c ≠ '-'

/-- A fully sanitized character list: only `[a-z0-9-]`, no dash runs, no
leading or trailing dash. -/
def Sanitized (l : List Char) : Prop :=
  l.all goodChar ∧ NoDD l ∧ headNotDash l ∧ lastNotDash l

/-! ### Lemmas about the sanitizing pipeline -/

lemma dash_not_alnum : isAlnumLower '-' = false := by decide

lemma jsToLower_of_goodChar {c : Char} (h : goodChar c = true) : jsToLower c = c := by
  unfold jsToLower
  split
  · next hAZ =>
    simp only [Bool.and_eq_true, decide_eq_true_eq] at hAZ
    simp only [goodChar, isAlnumLower, Bool.or_eq_true, Bool.and_eq_true,
      decide_eq_true_eq] at h
    rcases h with (⟨h1, h2⟩ | ⟨h1, h2⟩) | h1
    · exact absurd (le_trans h1 hAZ.2) (by decide)
    · exact absurd (le_trans hAZ.1 h2) (by decide)
    · rw [h1] at hAZ
      exact absurd hAZ.1 (by decide)
  · rfl

lemma collapseAux_all_good : ∀ (b : Bool) (l : List Char),
    (collapseNonAlnumAux b l).all goodChar = true := by
  intro b l
  induction l generalizing b with
  | nil => rfl
  | cons c cs ih =>
    by_cases hc : isAlnumLower c = true
    · rw [collapseNonAlnumAux, if_pos hc]
      simp only [List.all_cons, Bool.and_eq_true]
      exact ⟨by simp [goodChar, hc], ih false⟩
    · rw [collapseNonAlnumAux, if_neg hc]
      cases b with
      | true => simpa using ih true
      | false =>
        simp only [Bool.false_eq_true, if_false, List.all_cons, Bool.and_eq_true]
        exact ⟨by decide, ih true⟩

lemma collapse_all_good (l : List Char) : (collapseNonAlnum l).all goodChar = true :=
  collapseAux_all_good false l

lemma collapseAux_true_head : ∀ (l : List Char) (d : Char),
    (collapseNonAlnumAux true l).head? = some d → isAlnumLower d = true := by
  intro l
  induction l with
  | nil => intro d h; simp [collapseNonAlnumAux] at h
  | cons c cs ih =>
    intro d h
    by_cases hc : isAlnumLower c = true
    · rw [collapseNonAlnumAux, if_pos hc] at h
      simp at h
      rw [h] at hc
      exact hc
    · rw [collapseNonAlnumAux, if_neg hc, if_pos rfl] at h
      exact ih d h

lemma collapseAux_NoDD : ∀ (b : Bool) (l : List Char), NoDD (collapseNonAlnumAux b l) := by
  intro b l
  induction l generalizing b with
  | nil => exact List.chain'_nil
  | cons c cs ih =>
    by_cases hc : isAlnumLower c = true
    · rw [collapseNonAlnumAux, if_pos hc, NoDD, List.chain'_cons']
      refine ⟨fun y _ => ?_, ih false⟩
      rintro ⟨hcd, _⟩
      rw [hcd] at hc
      exact absurd hc (by decide)
    · rw [collapseNonAlnumAux, if_neg hc]
      cases b with
      | true => exact ih true
      | false =>
        simp only [Bool.false_eq_true, if_false]
        rw [NoDD, List.chain'_cons']
        refine ⟨fun y hy => ?_, ih true⟩
        rintro ⟨_, hyd⟩
        have := collapseAux_true_head cs y hy
        rw [hyd] at this
        exact absurd this (by decide)

lemma collapse_NoDD (l : List Char) : NoDD (collapseNonAlnum l) :=
  collapseAux_NoDD false l

lemma collapseAux_true_eq_false {l : List Char}
    (h : ∀ d ∈ l.head?, isAlnumLower d = true) :
    collapseNonAlnumAux true l = collapseNonAlnumAux false l := by
  cases l with
  | nil => rfl
  | cons d t =>
    have hd : isAlnumLower d = true := h d (by simp)
    rw [collapseNonAlnumAux, collapseNonAlnumAux, if_pos hd, if_pos hd]

lemma collapse_id {l : List Char} (hg : l.all goodChar = true) (hdd : NoDD l) :
    collapseNonAlnum l = l := by
  unfold collapseNonAlnum
  induction l with
  | nil => rfl
  | cons c cs ih =>
    simp only [List.all_cons, Bool.and_eq_true] at hg
    by_cases hc : isAlnumLower c = true
    · rw [collapseNonAlnumAux, if_pos hc, ih hg.2 ((List.chain'_cons'.mp hdd).2)]
    · have hcd : c = '-' := by
        have := hg.1
        simp only [goodChar, Bool.or_eq_true] at this
        rcases this with h | h
        · exact absurd h hc
        · simpa using h
      have hhead : ∀ d ∈ cs.head?, isAlnumLower d = true := by
        intro d hd
        cases cs with
        | nil => simp at hd
        | cons e t =>
          simp at hd
          subst hd
          have hne : e ≠ '-' := by
            have := (List.chain'_cons'.mp hdd).1 e (by simp)
            intro h; exact this ⟨hcd, h⟩
          have heg : goodChar e = true := by
            simp only [List.all_cons, Bool.and_eq_true] at hg
            exact hg.2.1
          simp only [goodChar, Bool.or_eq_true] at heg
          rcases heg with h | h
          · exact h
          · exact absurd (of_decide_eq_true h) hne
      rw [collapseNonAlnumAux, if_neg hc, if_neg (by simp), hcd,
        collapseAux_true_eq_false hhead, ih hg.2 ((List.chain'_cons'.mp hdd).2)]

lemma squeezeAux_true_eq_false {l : List Char}
    (h : ∀ d ∈ l.head?, d ≠ '-') :
    squeezeDashesAux true l = squeezeDashesAux false l := by
  cases l with
  | nil => rfl
  | cons d t =>
    have hd : d ≠ '-' := h d (by simp)
    rw [squeezeDashesAux, squeezeDashesAux, if_neg hd, if_neg hd]

lemma squeeze_id {l : List Char} (hdd : NoDD l) : squeezeDashes l = l := by
  unfold squeezeDashes
  induction l with
  | nil => rfl
  | cons c cs ih =>
    by_cases hc : c = '-'
    · have hhead : ∀ d ∈ cs.head?, d ≠ '-' := by
        intro d hd
        cases cs with
        | nil => simp at hd
        | cons e t =>
          simp at hd
          have := (List.chain'_cons'.mp hdd).1 e (by simp)
          intro hcon
          exact this ⟨hc, by rw [hd]; exact hcon⟩
      rw [squeezeDashesAux, if_pos hc, if_neg (by simp), hc,
        squeezeAux_true_eq_false hhead, ih ((List.chain'_cons'.mp hdd).2)]
    · rw [squeezeDashesAux, if_neg hc, ih ((List.chain'_cons'.mp hdd).2)]

lemma dropLead_all {l : List Char} (hg : l.all goodChar = true) :
    (dropLeadDash l).all goodChar = true := by
  cases l with
  | nil => exact hg
  | cons c t =>
    rw [dropLeadDash]
    split
    · simp only [List.all_cons, Bool.and_eq_true] at hg
      exact hg.2
    · exact hg

lemma dropLead_NoDD {l : List Char} (hdd : NoDD l) : NoDD (dropLeadDash l) := by
  cases l with
  | nil => exact hdd
  | cons c t =>
    rw [dropLeadDash]
    split
    · exact (List.chain'_cons'.mp hdd).2
    · exact hdd

lemma dropLead_headNotDash {l : List Char} (hdd : NoDD l) :
    headNotDash (dropLeadDash l) := by
  cases l with
  | nil => intro c hc; simp [dropLeadDash] at hc
  | cons c t =>
    rw [dropLeadDash]
    split
    · next hc =>
      intro d hd
      cases t with
      | nil => simp at hd
      | cons e r =>
        simp at hd
        have h2 := (List.chain'_cons'.mp hdd).1 e (by simp)
        intro h
        exact h2 ⟨hc, by rw [hd]; exact h⟩
    · next hc =>
      intro d hd
      simp at hd
      rw [← hd]
      exact hc

lemma dropLead_id {l : List Char} (h : headNotDash l) : dropLeadDash l = l := by
  cases l with
  | nil => rfl
  | cons c t =>
    rw [dropLeadDash, if_neg (h c (by simp))]

lemma dropTrail_head? : ∀ (l : List Char),
    (dropTrailDash l).head? = none ∨ (dropTrailDash l).head? = l.head? := by
  intro l
  match l with
  | [] => left; rfl
  | [c] =>
    rw [dropTrailDash]
    split
    · left; rfl
    · right; rfl
  | c :: d :: rest => right; rfl

lemma dropTrail_all : ∀ {l : List Char}, l.all goodChar = true →
    (dropTrailDash l).all goodChar = true := by
  intro l
  induction l using dropTrailDash.induct with
  | case1 => intro h; exact h
  | case2 => intro _; rfl
  | case3 c hc => intro h; rw [dropTrailDash, if_neg hc]; exact h
  | case4 c d rest ih =>
    intro h
    rw [dropTrailDash]
    simp only [List.all_cons, Bool.and_eq_true] at h ⊢
    exact ⟨h.1, ih (by simp [h.2.1, h.2.2])⟩

lemma dropTrail_NoDD : ∀ {l : List Char}, NoDD l → NoDD (dropTrailDash l) := by
  intro l
  induction l using dropTrailDash.induct with
  | case1 => intro h; exact h
  | case2 => intro _; exact List.chain'_nil
  | case3 c hc => intro _; rw [dropTrailDash, if_neg hc]; exact List.chain'_singleton c
  | case4 c d rest ih =>
    intro h
    rw [dropTrailDash, NoDD, List.chain'_cons']
    constructor
    · intro b hb
      rcases dropTrail_head? (d :: rest) with h0 | h0
      · rw [h0] at hb; simp at hb
      · rw [h0] at hb
        simp at hb
        rw [← hb]
        exact (List.chain'_cons'.mp h).1 d (by simp)
    · exact ih ((List.chain'_cons'.mp h).2)

lemma dropTrail_headNotDash : ∀ {l : List Char}, headNotDash l →
    headNotDash (dropTrailDash l) := by
  intro l
  match l with
  | [] => intro h; exact h
  | [c] =>
    intro h
    rw [dropTrailDash]
    split
    · intro d hd; simp at hd
    · exact h
  | c :: d :: rest =>
    intro h
    rw [dropTrailDash]
    intro e he
    simp at he
    rw [← he]
    exact h c (by simp)

lemma dropTrail_lastNotDash : ∀ {l : List Char}, NoDD l →
    lastNotDash (dropTrailDash l) := by
  intro l
  induction l using dropTrailDash.induct with
  | case1 => intro _ c hc; simp [dropTrailDash] at hc
  | case2 => intro _ c hc; simp [dropTrailDash] at hc
  | case3 c hc =>
    intro _ d hd
    rw [dropTrailDash, if_neg hc] at hd
    simp at hd
    rw [← hd]; exact hc
  | case4 c d rest ih =>
    intro h e he
    rw [dropTrailDash] at he
    cases hdt : dropTrailDash (d :: rest) with
    | nil =>
      rw [hdt] at he
      simp at he
      rw [← he]
      -- the tail vanished entirely, so `d :: rest = ['-']`
      have hdr : d = '-' ∧ rest = [] := by
        cases rest with
        | nil =>
          rw [dropTrailDash] at hdt
          constructor
          · by_contra hne
            rw [if_neg hne] at hdt
            exact absurd hdt (by simp)
          · rfl
        | cons f r =>
          rw [dropTrailDash] at hdt
          exact absurd hdt (by simp)
      have hcd := (List.chain'_cons'.mp h).1 d (by simp)
      intro hc
      exact hcd ⟨hc, hdr.1⟩
    | cons f r =>
      rw [hdt, List.getLast?_cons_cons] at he
      have h2 := ih ((List.chain'_cons'.mp h).2)
      rw [hdt] at h2
      exact h2 e he

lemma dropTrail_id : ∀ {l : List Char}, lastNotDash l → dropTrailDash l = l := by
  intro l
  induction l using dropTrailDash.induct with
  | case1 => intro _; rfl
  | case2 =>
    intro h
    exact absurd rfl (h '-' (by simp))
  | case3 c hc => intro _; rw [dropTrailDash, if_neg hc]
  | case4 c d rest ih =>
    intro h
    rw [dropTrailDash, ih ?_]
    intro e he
    exact h e (by rw [List.getLast?_cons_cons]; exact he)

lemma map_jsToLower_id {l : List Char} (hg : l.all goodChar = true) :
    l.map jsToLower = l := by
  induction l with
  | nil => rfl
  | cons c t ih =>
    simp only [List.all_cons, Bool.and_eq_true] at hg
    simp only [List.map_cons, jsToLower_of_goodChar hg.1, ih hg.2]

/-- The result of `sanitizeProjectName` always has the sanitized shape:
only `[a-z0-9-]`, no dash runs, no leading and no trailing dash. -/
lemma sanitize_sanitized (s : String) : Sanitized (sanitizeProjectName s).data := by
  unfold sanitizeProjectName
  set l0 := s.data.map jsToLower with hl0
  have h1g := collapse_all_good l0
  have h1d := collapse_NoDD l0
  have h2 : squeezeDashes (collapseNonAlnum l0) = collapseNonAlnum l0 := squeeze_id h1d
  rw [h2]
  refine ⟨dropTrail_all (dropLead_all h1g), dropTrail_NoDD (dropLead_NoDD h1d),
    dropTrail_headNotDash (dropLead_headNotDash h1d),
    dropTrail_lastNotDash (dropLead_NoDD h1d)⟩

/-- Sanitizing a list that already has the sanitized shape is the
identity. -/
lemma sanitize_fix {l : List Char} (h : Sanitized l) :
    dropTrailDash (dropLeadDash (squeezeDashes (collapseNonAlnum (l.map jsToLower)))) = l := by
  obtain ⟨hg, hdd, hh, ht⟩ := h
  rw [map_jsToLower_id hg, collapse_id hg hdd, squeeze_id hdd, dropLead_id hh,
    dropTrail_id ht]

/-- `sanitizeProjectName` is idempotent. -/
lemma sanitize_idem (s : String) :
    sanitizeProjectName (sanitizeProjectName s) = sanitizeProjectName s := by
  have h := sanitize_sanitized s
  show (⟨_⟩ : String) = _
  rw [sanitize_fix h]

/-! ## Prompt primitives (prompts module)

The `@clack/prompts` widgets are opaque: each user interaction is either a
cancellation gesture (ESC, carrying the `Date.now()` timestamp at which
`checkEscForBack` runs) or an entered/selected value.  A prompt loop is
driven by a script of such interactions; `none` means the script ran out
while the loop was still asking. -/

/-- Classification of a cancel by `checkEscForBack`. -/
inductive EscAction
  | back
  | hint
deriving DecidableEq

/-- Result of `checkEscForBack`: the classification (none when the value
was not a cancel) and the updated module-level `lastEscTime`. -/
structure EscCheck where
  action : Option EscAction
  lastEscTime : Nat
deriving DecidableEq

/-- Embedding of `checkEscForBack`.  `now` is `Date.now()`, `lastEscTime`
the module-level variable (initially 0).  JavaScript computes the signed
difference `now - lastEscTime`; with a non-decreasing clock the Nat
truncated subtraction agrees (and for a clock step backwards both give a
value below 1000, so the classification also agrees). -/
def checkEscForBack (isCancel : Bool) (now lastEscTime : Nat) : EscCheck :=
  if !isCancel then ⟨none, lastEscTime⟩
  else if now - lastEscTime < 1000 then ⟨some .back, now⟩
  else ⟨some .hint, now⟩

/-- One scripted user interaction with a prompt widget. -/
inductive RawResponse
  | cancel (now : Nat)
  | entry (s : String)
deriving DecidableEq

/-- What a prompt primitive returns: the `GO_BACK_SECTION` sentinel or a
value. -/
inductive PromptResult (α : Type)
  | back
  | value (v : α)
deriving DecidableEq

/-- Validation predicate of `promptDescription`'s text widget. -/
def validDescription (s : String) : Bool :=
  !(jsTrim s = "") && decide (20 ≤ s.length)

/-- Embedding of the `promptDescription` loop.  The widget's `validate`
callback re-asks invalid entries, which the model folds into the loop.
Returns the prompt outcome together with the final `lastEscTime`. -/
def promptDescriptionLoop (canGoBack : Bool) :
    Nat → List RawResponse → Option (PromptResult String × Nat)
  | _, [] => none
  | est, .cancel now :: rest =>
    match (checkEscForBack true now est).action with
    | some .back =>
      if canGoBack then some (.back, now)
      else promptDescriptionLoop canGoBack now rest
    | _ => promptDescriptionLoop canGoBack now rest
  | est, .entry s :: rest =>
    if validDescription s then some (.value s, est)
    else promptDescriptionLoop canGoBack est rest

/-- Validation predicate of `promptName`'s text widget. -/
def validNameEntry (s : String) : Bool :=
  !(jsTrim s = "") && !(sanitizeProjectName s = "")

/-- Embedding of the custom-name text loop inside `promptName`. -/
def promptNameText (canGoBack : Bool) :
    Nat → List RawResponse → Option (PromptResult String × Nat)
  | _, [] => none
  | est, .cancel now :: rest =>
    match (checkEscForBack true now est).action with
    | some .back =>
      if canGoBack then some (.back, now)
      else promptNameText canGoBack now rest
    | _ => promptNameText canGoBack now rest
  | est, .entry s :: rest =>
    if validNameEntry s then some (.value (sanitizeProjectName s), est)
    else promptNameText canGoBack est rest

/-- Embedding of the suggestion-select loop inside `promptName`: choosing
`__custom__` falls through to the text loop, any other selection is
returned sanitized. -/
def promptNameSelect (canGoBack : Bool) :
    Nat → List RawResponse → Option (PromptResult String × Nat)
  | _, [] => none
  | est, .cancel now :: rest =>
    match (checkEscForBack true now est).action with
    | some .back =>
      if canGoBack then some (.back, now)
      else promptNameSelect canGoBack now rest
    | _ => promptNameSelect canGoBack now rest
  | est, .entry s :: rest =>
    if s = "__custom__" then promptNameText canGoBack est rest
    else some (.value (sanitizeProjectName s), est)

/-- Embedding of `promptName`: with non-empty suggestions the select loop
runs first, otherwise the text loop runs directly. -/
def promptName (suggestedNames : List String) (canGoBack : Bool)
    (est : Nat) (script : List RawResponse) : Option (PromptResult String × Nat) :=
  if suggestedNames.isEmpty then promptNameText canGoBack est script
  else promptNameSelect canGoBack est script

lemma promptNameText_value {cg : Bool} :
    ∀ {est : Nat} {script : List RawResponse} {r : String} {est' : Nat},
      promptNameText cg est script = some (.value r, est') →
      ∃ s, r = sanitizeProjectName s := by
  intro est script
  induction script generalizing est with
  | nil => intro r est' h; simp [promptNameText] at h
  | cons a rest ih =>
    intro r est' h
    cases a with
    | cancel now =>
      rw [promptNameText] at h
      cases hck : (checkEscForBack true now est).action with
      | none => rw [hck] at h; exact ih h
      | some ac =>
        cases ac with
        | back =>
          rw [hck] at h
          cases hcg : cg
          · subst hcg
            rw [if_neg (by simp)] at h
            exact ih h
          · subst hcg
            rw [if_pos rfl] at h
            simp at h
        | hint => rw [hck] at h; exact ih h
    | entry s =>
      rw [promptNameText] at h
      by_cases hv : validNameEntry s = true
      · rw [if_pos hv] at h
        simp at h
        exact ⟨s, h.1.symm⟩
      · rw [if_neg hv] at h
        exact ih h

lemma promptNameSelect_value {cg : Bool} :
    ∀ {est : Nat} {script : List RawResponse} {r : String} {est' : Nat},
      promptNameSelect cg est script = some (.value r, est') →
      ∃ s, r = sanitizeProjectName s := by
  intro est script
  induction script generalizing est with
  | nil => intro r est' h; simp [promptNameSelect] at h
  | cons a rest ih =>
    intro r est' h
    cases a with
    | cancel now =>
      rw [promptNameSelect] at h
      cases hck : (checkEscForBack true now est).action with
      | none => rw [hck] at h; exact ih h
      | some ac =>
        cases ac with
        | back =>
          rw [hck] at h
          cases hcg : cg
          · subst hcg
            rw [if_neg (by simp)] at h
            exact ih h
          · subst hcg
            rw [if_pos rfl] at h
            simp at h
        | hint => rw [hck] at h; exact ih h
    | entry s =>
      rw [promptNameSelect] at h
      by_cases hc : s = "__custom__"
      · rw [if_pos hc] at h
        exact promptNameText_value h
      · rw [if_neg hc] at h
        simp at h
        exact ⟨s, h.1.symm⟩

lemma promptName_value {names : List String} {cg : Bool} {est : Nat}
    {script : List RawResponse} {r : String} {est' : Nat}
    (h : promptName names cg est script = some (.value r, est')) :
    ∃ s, r = sanitizeProjectName s := by
  rw [promptName] at h
  split at h
  · exact promptNameText_value h
  · exact promptNameSelect_value h

lemma string_ne_empty_data {r : String} (h : r ≠ "") : r.data ≠ [] := by
  intro hd
  exact h (String.ext hd)

/-- A sanitized, non-empty string matches the `ProjectContextSchema` name
pattern. -/
lemma sanitized_namePatternOk {r : String} (hs : Sanitized r.data) (hne : r ≠ "") :
    namePatternOk r = true := by
  rw [namePatternOk]
  have h1 : r.data ≠ [] := string_ne_empty_data hne
  have h2 : r.data.all (fun c => isAlnumLower c || c = '-') = true := by
    have := hs.1
    simpa [goodChar] using this
  simp [h1, h2]

/-! ## Core context data (`src/core/context.ts`, newer variant) -/

/-- Marketing tactic record inside a `SaasIdea`. -/
structure MarketingTactic where
  channel : String
  approach : String
  expectedOutcome : Option String
deriving DecidableEq

/-- Market-opportunity block of a `SaasIdea`.  Scores are JavaScript
numbers; the values the code produces and the claims touch are integral,
so they are embedded as `Int`. -/
structure MarketOpportunity where
  score : Int
  verdict : String
  reasoning : String
  competitors : List String
  gap : String
deriving DecidableEq

/-- Difficulty block of a `SaasIdea`. -/
structure ClaudeCodeDifficulty where
  score : Int
  label : String
  reasoning : String
  estimatedHours : String
  aiStrengths : List String
deriving DecidableEq

/-- Marketing block of a `SaasIdea`. -/
structure MarketingStrategy where
  primaryChannels : List String
  launchStrategy : String
  estimatedCost : String
  timeToFirstUsers : String
  tactics : List MarketingTactic
deriving DecidableEq

/-- Income block of a `SaasIdea`. -/
structure IncomeProjection where
  model : String
  suggestedPricing : String
  monthlyPotential : String
  timeToFirstRevenue : Option String
deriving DecidableEq

/-- A discovered SaaS idea (`SaasIdea` in `src/core/context.ts`). -/
structure SaasIdea where
  id : String
  name : String
  tagline : String
  description : String
  problemSolved : String
  targetAudience : List String
  coreFeatures : List String
  marketOpportunity : MarketOpportunity
  difficulty : ClaudeCodeDifficulty
  marketing : MarketingStrategy
  income : IncomeProjection
  sources : List String
deriving DecidableEq

/-! ## Idea discovery (`src/ai/idea-discovery.ts`) -/

/-- Raw market-opportunity block as parsed from the AI response: every
field may be missing. -/
structure RawMarketOpportunity where
  score : Option Int
  verdict : Option String
  reasoning : Option String
  competitors : Option (List String)
  gap : Option String
deriving DecidableEq

/-- Raw difficulty block. -/
structure RawDifficulty where
  score : Option Int
  label : Option String
  reasoning : Option String
  estimatedHours : Option String
  aiStrengths : Option (List String)
deriving DecidableEq

/-- Raw marketing tactic. -/
structure RawTactic where
  channel : Option String
  approach : Option String
  expectedOutcome : Option String
deriving DecidableEq

/-- Raw marketing block. -/
structure RawMarketing where
  primaryChannels : Option (List String)
  launchStrategy : Option String
  estimatedCost : Option String
  timeToFirstUsers : Option String
  tactics : Option (List RawTactic)
deriving DecidableEq

/-- Raw income block. -/
structure RawIncome where
  model : Option String
  suggestedPricing : Option String
  monthlyPotential : Option String
  timeToFirstRevenue : Option String
deriving DecidableEq

/-- Raw idea from the AI response (`RawSaasIdea`): all fields optional. -/
structure RawSaasIdea where
  id : Option String
  name : Option String
  tagline : Option String
  description : Option String
  problemSolved : Option String
  targetAudience : Option (List String)
  coreFeatures : Option (List String)
  marketOpportunity : Option RawMarketOpportunity
  difficulty : Option RawDifficulty
  marketing : Option RawMarketing
  income : Option RawIncome
  sources : Option (List String)
deriving DecidableEq

/-- JavaScript `a || d` for optional strings: an absent or empty string
falls back to the default. -/
def strOr (o : Option String) (d : String) : String :=
  match o with
  | some s => if s = "" then d else s
  | none => d

/-- JavaScript `a || d` for optional arrays: only an absent array falls
back (an empty array is truthy). -/
def listOr {α : Type} (o : Option (List α)) (d : List α) : List α :=
  o.getD d

/-- Lowercase a whole string (`String.prototype.toLowerCase`, ASCII). -/
def strToLower (s : String) : String := ⟨s.data.map jsToLower⟩

/-- Embedding of `normalizeVerdict`. -/
def normalizeVerdict (verdict : Option String) : String :=
  match verdict with
  | none => "moderate"
  | some v0 =>
    let v := strToLower v0
    if v = "strong" then "strong"
    else if v = "moderate" then "moderate"
    else if v = "weak" then "weak"
    else if v = "saturated" then "saturated"
    else "moderate"

/-- Embedding of `normalizeCost`. -/
def normalizeCost (cost : Option String) : String :=
  match cost with
  | none => "free"
  | some c0 =>
    let c := strToLower c0
    if c = "free" then "free"
    else if c = "low" then "low"
    else if c = "medium" then "medium"
    else if c = "high" then "high"
    else "free"

/-- Embedding of `normalizeIncomeModel`. -/
def normalizeIncomeModel (model : Option String) : String :=
  match model with
  | none => "freemium"
  | some m0 =>
    let m := strToLower m0
    if m = "subscription" then "subscription"
    else if m = "freemium" then "freemium"
    else if m = "one-time" then "one-time"
    else if m = "usage-based" then "usage-based"
    else "freemium"

/-- Embedding of `getDefaultHours`. -/
def getDefaultHours (score : Int) : String :=
  if score = 1 then "2-4 hours"
  else if score = 2 then "4-8 hours"
  else if score = 3 then "1-2 days"
  else if score = 4 then "2-3 days"
  else if score = 5 then "3+ days"
  else "1-2 days"

/-- The `difficultyLabels` table of `normalizeIdea` (the key is always in
1..5 after clamping). -/
def difficultyLabelFor (score : Int) : String :=
  if score = 1 then "trivial"
  else if score = 2 then "easy"
  else if score = 3 then "moderate"
  else if score = 4 then "challenging"
  else "complex"

/-- Embedding of `normalizeIdea`. -/
def normalizeIdea (raw : RawSaasIdea) (index : Nat) : SaasIdea :=
  let difficultyScore : Int := min 5 (max 1 ((raw.difficulty.bind (·.score)).getD 3))
  let marketScore : Int := min 10 (max 1 ((raw.marketOpportunity.bind (·.score)).getD 5))
  let marketVerdict := normalizeVerdict (raw.marketOpportunity.bind (·.verdict))
  let costEstimate := normalizeCost (raw.marketing.bind (·.estimatedCost))
  let incomeModel := normalizeIncomeModel (raw.income.bind (·.model))
  { id := strOr raw.id ("idea-" ++ toString (index + 1))
    name := strOr raw.name ("Idea " ++ toString (index + 1))
    tagline := strOr raw.tagline "A micro-SaaS opportunity"
    description := strOr raw.description "No description provided"
    problemSolved := strOr raw.problemSolved "Problem to be defined"
    targetAudience := listOr raw.targetAudience ["General users"]
    coreFeatures :=
      match raw.coreFeatures with
      | some l => l.take 3
      | none => ["Core feature"]
    marketOpportunity :=
      { score := marketScore
        verdict := marketVerdict
        reasoning := strOr (raw.marketOpportunity.bind (·.reasoning)) "Market analysis pending"
        competitors := listOr (raw.marketOpportunity.bind (·.competitors)) []
        gap := strOr (raw.marketOpportunity.bind (·.gap)) "Gap to be identified" }
    difficulty :=
      { score := difficultyScore
        label := strOr (raw.difficulty.bind (·.label)) (difficultyLabelFor difficultyScore)
        reasoning := strOr (raw.difficulty.bind (·.reasoning)) "Difficulty assessment pending"
        estimatedHours := strOr (raw.difficulty.bind (·.estimatedHours)) (getDefaultHours difficultyScore)
        aiStrengths := listOr (raw.difficulty.bind (·.aiStrengths)) ["Standard patterns"] }
    marketing :=
      { primaryChannels := listOr (raw.marketing.bind (·.primaryChannels)) ["To be researched"]
        launchStrategy := strOr (raw.marketing.bind (·.launchStrategy)) "Launch strategy pending"
        estimatedCost := costEstimate
        timeToFirstUsers := strOr (raw.marketing.bind (·.timeToFirstUsers)) "2-4 weeks"
        tactics :=
          (listOr (raw.marketing.bind (·.tactics)) []).map (fun t =>
            { channel := strOr t.channel "Unknown"
              approach := strOr t.approach "Approach TBD"
              expectedOutcome := t.expectedOutcome }) }
    income :=
      { model := incomeModel
        suggestedPricing := strOr (raw.income.bind (·.suggestedPricing)) "$9-29/month"
        monthlyPotential := strOr (raw.income.bind (·.monthlyPotential)) "$500-2000/month"
        timeToFirstRevenue := raw.income.bind (·.timeToFirstRevenue) }
    sources := listOr raw.sources [] }

/-- Embedding of `createFallbackIdeas`: the built-in example ideas used
whenever discovery fails. -/
def createFallbackIdeas : List SaasIdea :=
  [ { id := "fallback-1"
      name := "WaitlistKit"
      tagline := "Launch a waitlist in 5 minutes"
      description := "Simple waitlist builder for pre-launch products. Collect emails, show position, referral bonuses."
      problemSolved := "Founders need to validate ideas before building, but setting up waitlists is tedious"
      targetAudience := ["Indie hackers", "Startup founders", "Product managers"]
      coreFeatures := ["Email collection", "Referral tracking", "Embeddable widget"]
      marketOpportunity :=
        { score := 7
          verdict := "moderate"
          reasoning := "Proven demand - competitors like LaunchList exist but leave room for simpler alternatives"
          competitors := ["LaunchList", "Waitlist.me"]
          gap := "Most solutions are overpriced or overcomplicated for simple use cases" }
      difficulty :=
        { score := 2
          label := "easy"
          reasoning := "Simple CRUD with email collection and counter logic"
          estimatedHours := "4-6 hours"
          aiStrengths := ["Standard form handling", "Simple database schema", "Embeddable components"] }
      marketing :=
        { primaryChannels := ["r/SideProject", "IndieHackers", "Product Hunt"]
          launchStrategy := "Build in public on Twitter, launch on Product Hunt, post in founder communities"
          estimatedCost := "free"
          timeToFirstUsers := "1-2 weeks"
          tactics :=
            [ { channel := "IndieHackers"
                approach := "Share building journey, offer early access"
                expectedOutcome := none },
              { channel := "Product Hunt"
                approach := "Launch with maker story"
                expectedOutcome := none } ] }
      income :=
        { model := "freemium"
          suggestedPricing := "$0 free (100 signups) / $9/mo pro"
          monthlyPotential := "$500-1500/month"
          timeToFirstRevenue := none }
      sources := [] },
    { id := "fallback-2"
      name := "FeedbackDrop"
      tagline := "Collect user feedback without leaving your app"
      description := "Lightweight feedback widget for web apps. Screenshot capture, categorization, Slack notifications."
      problemSolved := "Developers lose valuable feedback because users won\x27t switch to external tools"
      targetAudience := ["SaaS developers", "Product teams", "Indie makers"]
      coreFeatures := ["Embedded widget", "Screenshot capture", "Slack integration"]
      marketOpportunity :=
        { score := 6
          verdict := "moderate"
          reasoning := "Canny and similar tools are expensive. Room for lightweight alternative."
          competitors := ["Canny", "UserVoice"]
          gap := "Simple, affordable option for small teams" }
      difficulty :=
        { score := 3
          label := "moderate"
          reasoning := "Widget embedding and screenshot capture add some complexity"
          estimatedHours := "1-2 days"
          aiStrengths := ["React components", "API integration", "Webhook handling"] }
      marketing :=
        { primaryChannels := ["r/webdev", "HackerNews", "Dev.to"]
          launchStrategy := "Write technical blog posts about building feedback systems"
          estimatedCost := "free"
          timeToFirstUsers := "2-4 weeks"
          tactics :=
            [ { channel := "Dev.to"
                approach := "Technical tutorials on feedback collection"
                expectedOutcome := none } ] }
      income :=
        { model := "freemium"
          suggestedPricing := "$0 free / $19/mo pro"
          monthlyPotential := "$1000-3000/month"
          timeToFirstRevenue := none }
      sources := [] } ]

/-- Outcome of the `claudeGenerateWithProgress` task as seen by
`discoverSaasIdeas`: it either resolves with the response text or throws
with an error message. -/
inductive TaskOutcome
  | ok (response : String)
  | thrown (msg : String)
deriving DecidableEq

/-- Result type of `discoverSaasIdeas`. -/
structure DiscoveryResult where
  ideas : List SaasIdea
  isFallback : Bool
  error : Option String
deriving DecidableEq

/-- Value produced by `extractJsonFromResponse`: a parsed object whose
`ideas` key may be missing or not an array (both embedded as `none`). -/
structure ExtractedIdeas where
  ideas : Option (List RawSaasIdea)
deriving DecidableEq

/-- Embedding of `discoverSaasIdeas`.  Availability of the Claude CLI,
the task outcome and the JSON extraction are the opaque external
collaborators and appear as parameters. -/
def discoverSaasIdeas (available : Bool) (task : TaskOutcome)
    (extractJson : String → Option ExtractedIdeas) : DiscoveryResult :=
  if !available then
    ⟨createFallbackIdeas, true, some "Claude Code CLI not available"⟩
  else
    match task with
    | .thrown msg => ⟨createFallbackIdeas, true, some msg⟩
    | .ok response =>
      match extractJson response with
      | none => ⟨createFallbackIdeas, true, some "Invalid AI response format"⟩
      | some parsed =>
        match parsed.ideas with
        | none => ⟨createFallbackIdeas, true, some "No ideas found in response"⟩
        | some rawIdeas =>
          if rawIdeas.isEmpty then
            ⟨createFallbackIdeas, true, some "No ideas found in response"⟩
          else
            ⟨rawIdeas.mapIdx (fun i raw => normalizeIdea raw i), false, none⟩

/-- A degraded discovery result: the built-in fallback ideas, flagged as
fallback, with a non-empty error message. -/
def DegradedResult (r : DiscoveryResult) : Prop :=
  r.ideas = createFallbackIdeas ∧ r.isFallback = true ∧
    ∃ m, r.error = some m ∧ m ≠ ""

/-! ## Streaming task runner (`src/ai/claude-cli.ts`,
`claudeGenerateWithProgress`) -/

/-- Shape of a parsed NDJSON stream event, restricted to what the result
handling inspects: whether `event.type === 'result'` and the optional
`event.result` string. -/
structure StreamEventShape where
  typeIsResult : Bool
  result : Option String
deriving DecidableEq

/-- The result text a single parsed event contributes, honouring the
JavaScript truthiness guard `event.type === 'result' && event.result`. -/
def eventResultText (ev : StreamEventShape) : Option String :=
  if ev.typeIsResult then
    match ev.result with
    | some r => if r = "" then none else some r
    | none => none
  else none

/-- The `finalResult` variable after the streaming `data` handler has
consumed every complete line of stdout (the last newline-free segment
stays in `buffer`).  `parseLine` stands for `JSON.parse` on a trimmed
line, `none` meaning a parse error (the line is skipped). -/
def streamFinalResult (parseLine : String → Option StreamEventShape)
    (stdout : String) : String :=
  ((jsSplit stdout '\n').dropLast).foldl
    (fun acc line =>
      let trimmed := jsTrim line
      if trimmed = "" then acc
      else
        match parseLine trimmed with
        | some ev =>
          match eventResultText ev with
          | some r => r
          | none => acc
        | none => acc)
    ""

/-- The trailing `buffer` at the time the child closes: the last segment
of stdout after the final newline. -/
def trailingBuffer (stdout : String) : String :=
  ((jsSplit stdout '\n').getLast?).getD ""

/-- The `finalResult` after the close handler has also processed the
trailing buffer. -/
def closeFinalResult (parseLine : String → Option StreamEventShape)
    (stdout : String) : String :=
  let fr := streamFinalResult parseLine stdout
  let buf := jsTrim (trailingBuffer stdout)
  if buf = "" then fr
  else
    match parseLine buf with
    | some ev =>
      match eventResultText ev with
      | some r => r
      | none => fr
    | none => fr

/-- Backward scan over the NDJSON lines of `stdout.trim()` looking for a
result event, as in the close handler fallback loop. -/
def backwardScan (parseLine : String → Option StreamEventShape)
    (stdout : String) : Option String :=
  ((jsSplit (jsTrim stdout) '\n').reverse).findSome?
    (fun line =>
      match parseLine line with
      | some ev => eventResultText ev
      | none => none)

/-- Exit code of the child: `none` when killed by a signal (JavaScript
`null`). -/
def codeIsNonZero (code : Option Int) : Bool :=
  match code with
  | some c => c != 0
  | none => true

/-- Render the exit code the way the template literal does
(JavaScript prints `null` for a signal kill). -/
def renderCode (code : Option Int) : String :=
  match code with
  | some c => toString c
  | none => "null"

/-- Embedding of the `close` handler of `claudeGenerateWithProgress`:
reject on non-zero exit without a parsed final answer, otherwise prefer
the parsed final answer (stream, trailing buffer, or backward scan) over
raw stdout. -/
def closeResolve (parseLine : String → Option StreamEventShape)
    (code : Option Int) (stdout stderr : String) : Except String String :=
  let finalResult := closeFinalResult parseLine stdout
  if codeIsNonZero code && finalResult = "" then
    .error ("Claude Code failed with code " ++ renderCode code ++ ": " ++ stderr)
  else if finalResult = "" then
    match backwardScan parseLine stdout with
    | some r => .ok r
    | none => .ok stdout
  else .ok finalResult

/-! ## Process registry (`src/utils/process-manager.ts`) -/

/-- The process world: which child pids are alive, and which are in the
module-level `activeProcesses` registry. -/
structure ProcWorld where
  alive : List Nat
  tracked : List Nat
deriving DecidableEq

/-- Embedding of `trackProcess`: add the child to the registry (a `Set`,
so adding is idempotent).  The exit/error auto-removal listeners are
modelled by `processExited`. -/
def trackProcess (w : ProcWorld) (pid : Nat) : ProcWorld :=
  { w with tracked := if pid ∈ w.tracked then w.tracked else pid :: w.tracked }

/-- Embedding of `untrackProcess`. -/
def untrackProcess (w : ProcWorld) (pid : Nat) : ProcWorld :=
  { w with tracked := w.tracked.filter (fun p => p ≠ pid) }

/-- A tracked child exits: it leaves the alive set, and its
`trackProcess` exit listener removes it from the registry. -/
def processExited (w : ProcWorld) (pid : Nat) : ProcWorld :=
  { alive := w.alive.filter (fun p => p ≠ pid)
    tracked := w.tracked.filter (fun p => p ≠ pid) }

/-- Embedding of `killAllProcesses`: SIGTERM every registry member, and
SIGKILL survivors after the 500 ms grace period — the net effect after
the grace period is that no registered process is still alive.
Processes outside the registry are untouched. -/
def killAllProcesses (w : ProcWorld) : ProcWorld :=
  { w with alive := w.alive.filter (fun p => p ∉ w.tracked) }

/-- Embedding of the `spawn('claude', args, ...)` call inside
`claudeGenerateWithProgress`: the child starts living.  The source never
passes this child to `trackProcess` (the process-manager module is not
even imported there), so the registry is left unchanged. -/
def spawnClaudeChild (w : ProcWorld) (pid : Nat) : ProcWorld :=
  { w with alive := pid :: w.alive }

/-! ## Project context record (`src/core/context.ts`) -/

/-- Landing-page feature entry. -/
structure Feature where
  title : String
  description : String
  icon : Option String
deriving DecidableEq

/-- Testimonial entry. -/
structure Testimonial where
  quote : String
  author : String
  role : String
  company : String
  avatar : Option String
deriving DecidableEq

/-- FAQ entry. -/
structure FAQItem where
  question : String
  answer : String
deriving DecidableEq

/-- Generated marketing content bundle. -/
structure GeneratedContent where
  tagline : String
  heroHeadline : String
  heroSubheadline : String
  features : List Feature
  testimonials : List Testimonial
  faqItems : List FAQItem
  seoKeywords : List String
  metaDescription : String
  privacyPolicy : Option String
  termsOfService : Option String
deriving DecidableEq

/-- Pricing tier. -/
structure PricingTier where
  name : String
  price : Int
  interval : String
  features : List String
  highlighted : Option Bool
deriving DecidableEq

/-- Pricing block. -/
structure Pricing where
  type : String
  tiers : List PricingTier
deriving DecidableEq

/-- Feature toggles. -/
structure ProjectFeatures where
  auth : Bool
  database : Bool
  payments : Bool
  seo : Bool
  analytics : String
  email : Bool
  legal : Bool
  assets : Bool
  waitlist : Bool
  supportChat : Bool
  featureFlags : Bool
  changelog : Bool
  statusPage : Bool
  referral : Bool
  multiTenancy : Bool
  apiDocs : Bool
  i18n : Bool
  abTesting : Bool
  onboarding : Bool
  admin : Bool
deriving DecidableEq

/-- Environment key material (never populated by the wizard itself). -/
structure EnvironmentConfig where
  clerkPublishableKey : Option String
  clerkSecretKey : Option String
  convexUrl : Option String
  convexDeployKey : Option String
  stripePublishableKey : Option String
  stripeSecretKey : Option String
  stripeWebhookSecret : Option String
  sentryDsn : Option String
  analyticsId : Option String
  resendApiKey : Option String
deriving DecidableEq

/-- The wizard's accumulated project context.  `marketResearch` is kept
opaque (`Option Unit`): the create wizard embedded here never writes it,
and the only read feeds the opaque AI prompt text.  `createdAt` is the
wall-clock ISO timestamp, outside the embedding. -/
structure ProjectContext where
  name : String
  displayName : String
  description : String
  domain : Option String
  saasType : String
  industry : Option String
  targetAudience : Option String
  valueProposition : Option String
  features : ProjectFeatures
  pricing : Pricing
  content : GeneratedContent
  marketResearch : Option Unit
  discoveredIdea : Option SaasIdea
  environment : EnvironmentConfig
  createdAt : String
  saasfactoryVersion : String
deriving DecidableEq

/-- ASCII uppercasing of one character (`charAt(0).toUpperCase()`). -/
def jsToUpper (c : Char) : Char :=
  if 'a' ≤ c && c ≤ 'z' then Char.ofNat (c.toNat - 32) else c

/-- Capitalize one word: `word.charAt(0).toUpperCase() + word.slice(1)`. -/
def capitalizeWord (w : String) : String :=
  match w.data with
  | [] => ""
  | c :: rest => ⟨jsToUpper c :: rest⟩

/-- The `displayName` derivation of `createDefaultContext`. -/
def displayNameOf (name : String) : String :=
  String.intercalate " " ((jsSplit name '-').map capitalizeWord)

/-- Embedding of `createDefaultContext`. -/
def createDefaultContext (name description : String) : ProjectContext :=
  { name := name
    displayName := displayNameOf name
    description := description
    domain := none
    saasType := "b2b"
    industry := none
    targetAudience := none
    valueProposition := none
    features :=
      { auth := true, database := true, payments := true, seo := true
        analytics := "posthog"
        email := true, legal := true, assets := true
        waitlist := true, supportChat := false, featureFlags := false
        changelog := false, statusPage := false, referral := false
        multiTenancy := false, apiDocs := false, i18n := false
        abTesting := false, onboarding := true, admin := false }
    pricing :=
      { type := "freemium"
        tiers :=
          [ { name := "Free", price := 0, interval := "month"
              features := ["Basic features", "Community support"]
              highlighted := none },
            { name := "Pro", price := 19, interval := "month"
              features := ["All Free features", "Priority support", "Advanced features"]
              highlighted := some true },
            { name := "Enterprise", price := 99, interval := "month"
              features := ["All Pro features", "Dedicated support", "Custom integrations"]
              highlighted := none } ] }
    content :=
      { tagline := "", heroHeadline := "", heroSubheadline := ""
        features := [], testimonials := [], faqItems := []
        seoKeywords := [], metaDescription := ""
        privacyPolicy := none, termsOfService := none }
    marketResearch := none
    discoveredIdea := none
    environment :=
      { clerkPublishableKey := none, clerkSecretKey := none
        convexUrl := none, convexDeployKey := none
        stripePublishableKey := none, stripeSecretKey := none
        stripeWebhookSecret := none, sentryDsn := none
        analyticsId := none, resendApiKey := none }
    createdAt := ""
    saasfactoryVersion := "0.1.0" }

/-! ## The create-command wizard state machine (`src/cli/index.ts`) -/

/-- The wizard states of the create command. -/
inductive WizardState
  | idea_mode
  | discovery_sector
  | discovery_rough_idea
  | discovery_research
  | discovery_results
  | discovery_select
  | discovery_confirm
  | name
  | description
  | idea_refinement
  | name_research
  | project_config
  | branding
  | ai_content
  | summary
  | project_location
  | generate
deriving DecidableEq

/-- Answer to `promptIdeaMode`. -/
inductive IdeaMode
  | has_idea
  | discover
  | validate
deriving DecidableEq

/-- One refined idea version (`RefinedIdea` of `src/ai/idea-refiner.ts`). -/
structure RefinedIdea where
  summary : String
  keyFeatures : List String
  targetAudience : String
  uniqueAngle : Option String
deriving DecidableEq

/-- Competitor summary returned by `suggestProjectNames`. -/
structure CompetitorBrief where
  name : String
  description : String
deriving DecidableEq

/-- Select option of an AI-generated question. -/
structure SimpleOption where
  value : String
  label : String
deriving DecidableEq

/-- AI-suggested feature (`ProjectAnalysis.suggestedFeatures`). -/
structure AnalysisFeature where
  id : String
  label : String
  description : String
deriving DecidableEq

/-- AI-suggested pricing option. -/
structure PricingOption where
  value : String
  label : String
  hint : String
deriving DecidableEq

/-- AI-generated custom question (`ProjectQuestion`). -/
structure ProjectQuestion where
  id : String
  question : String
  options : List SimpleOption
  multiSelect : Bool
deriving DecidableEq

/-- Result of `analyzeProject` (`ProjectAnalysis`). -/
structure ProjectAnalysis where
  projectType : String
  suggestedFeatures : List AnalysisFeature
  pricingOptions : List PricingOption
  questions : List ProjectQuestion
  success : Bool
  error : Option String
deriving DecidableEq

/-- One answer to an AI-generated question (string or string array). -/
inductive ConfigAnswer
  | single (s : String)
  | multi (l : List String)
deriving DecidableEq

/-- Result of `promptProjectConfig` (`ProjectConfigAnswers`). -/
structure ProjectConfigAnswers where
  projectType : String
  pricing : String
  features : List String
  customAnswers : List (String × ConfigAnswer)
deriving DecidableEq

/-- Parsed AI marketing content merged into `context.content` by
`Object.assign` (the six keys the prompt requests; absent keys leave the
existing value). -/
structure ContentPatch where
  tagline : Option String
  heroHeadline : Option String
  heroSubheadline : Option String
  features : Option (List Feature)
  metaDescription : Option String
  seoKeywords : Option (List String)
deriving DecidableEq

/-- `Object.assign(context.content, parsed)`. -/
def mergeContent (c : GeneratedContent) (p : ContentPatch) : GeneratedContent :=
  { c with
    tagline := p.tagline.getD c.tagline
    heroHeadline := p.heroHeadline.getD c.heroHeadline
    heroSubheadline := p.heroSubheadline.getD c.heroSubheadline
    features := p.features.getD c.features
    metaDescription := p.metaDescription.getD c.metaDescription
    seoKeywords := p.seoKeywords.getD c.seoKeywords }

/-- Prefix test on character lists. -/
def listIsPrefixOfB : List Char → List Char → Bool
  | [], _ => true
  | _ :: _, [] => false
  | a :: as, b :: bs => a = b && listIsPrefixOfB as bs

/-- Infix test on character lists. -/
def listIsInfixOfB (pat : List Char) : List Char → Bool
  | [] => pat.isEmpty
  | l@(_ :: t) => listIsPrefixOfB pat l || listIsInfixOfB pat t

/-- Substring containment, JavaScript `String.prototype.includes`. -/
def strIncludes (s pat : String) : Bool :=
  listIsInfixOfB pat.data s.data

/-- The inline name sanitizer of the `discovery_confirm` handler:
`.toLowerCase().replace(/[^a-z0-9]+/g, '-').replace(/^-|-$/g, '')`
(without the dash-squeeze step of `sanitizeProjectName`). -/
def inlineSanitizeIdeaName (s : String) : String :=
  ⟨dropTrailDash (dropLeadDash (collapseNonAlnum (s.data.map jsToLower)))⟩

/-- The audience / income derivations applied to a fresh context after an
idea is selected (`discovery_confirm` handler) and re-applied by the
`name` handler whenever `selectedIdea` is set. -/
def applyDiscoveredIdea (ctx : ProjectContext) (idea : SaasIdea) : ProjectContext :=
  let ctx := { ctx with discoveredIdea := some idea }
  let audienceLower := strToLower (String.intercalate " " idea.targetAudience)
  let ctx :=
    if strIncludes audienceLower "business" || strIncludes audienceLower "team" ||
        strIncludes audienceLower "enterprise" then
      { ctx with saasType := "b2b" }
    else if strIncludes audienceLower "developer" || strIncludes audienceLower "maker" then
      { ctx with saasType := "tool" }
    else ctx
  if idea.income.model = "subscription" then
    { ctx with pricing := { ctx.pricing with type := "subscription" } }
  else if idea.income.model = "freemium" then
    { ctx with pricing := { ctx.pricing with type := "freemium" } }
  else if idea.income.model = "one-time" then
    { ctx with pricing := { ctx.pricing with type := "one-time" } }
  else ctx

/-- Command-line parameters and environment of one `create` run. -/
structure Params where
  nameArg : Option String
  claudeAvailable : Bool
  skipAi : Bool
  skipResearch : Bool
  yes : Bool
  cwd : String
deriving DecidableEq

/-- The local mutable variables of the create-command closure. -/
structure WizardM where
  wizardState : WizardState
  aiContentGenerated : Bool
  projectName : String
  description : String
  context : ProjectContext
  brandingAnswers : Option (String × String)
  ideaMode : IdeaMode
  discoverySector : Option String
  roughIdea : Option String
  discoveredIdeas : List SaasIdea
  selectedIdea : Option SaasIdea
  projectPath : Option String
  suggestedNames : List String
  foundCompetitors : List CompetitorBrief
  projectAnalysis : Option ProjectAnalysis
  projectConfig : Option ProjectConfigAnswers
deriving DecidableEq

/-- JavaScript truthiness of the optional name argument. -/
def strTruthy (o : Option String) : Bool :=
  match o with
  | some s => s ≠ ""
  | none => false

/-- Initial wizard state and data (lines 104-134 of `src/cli/index.ts`). -/
def initWizard (p : Params) : WizardM :=
  { wizardState :=
      if strTruthy p.nameArg then .description
      else if p.claudeAvailable then .idea_mode
      else .name
    aiContentGenerated := false
    projectName := if strTruthy p.nameArg then p.nameArg.getD "" else ""
    description := ""
    context := createDefaultContext "temp" ""
    brandingAnswers := none
    ideaMode := .has_idea
    discoverySector := none
    roughIdea := none
    discoveredIdeas := []
    selectedIdea := none
    projectPath := none
    suggestedNames := []
    foundCompetitors := []
    projectAnalysis := none
    projectConfig := none }

/-- One scripted outcome of a prompt or of an opaque AI call, tagged by
the state that consumes it. -/
inductive Input
  | imBack
  | imMode (m : IdeaMode)
  | riBack
  | riText (s : String)
  | dsBack
  | dsSector (sector : Option String)
  | dres (r : DiscoveryResult)
  | selBack
  | selMore
  | selSector
  | selPick (idea : SaasIdea)
  | dcBack
  | dcConfirm (b : Bool)
  | nBack
  | nValue (s : String)
  | dBack
  | dValue (s : String)
  | irFail
  | irBack
  | irSelected (i : RefinedIdea)
  | irCustom (t : String)
  | irSkip
  | nrFail
  | nrOk (names : List String) (competitors : List CompetitorBrief)
  | pcAnalyzed (a : ProjectAnalysis)
  | pcBack
  | pcConfig (c : ProjectConfigAnswers)
  | brBack
  | brValue (domain tagline : String)
  | acOk (patch : ContentPatch)
  | acParseFail
  | acGenFail
  | sBack
  | sConfirm (b : Bool)
  | plBack
  | plPath (s : String)
deriving DecidableEq

/-- One iteration of the wizard `while` loop at state `w.wizardState`.
Returns the updated variables, whether the handler executed `return`
(ending the whole command), the number of `ai_content` generation calls
made, and the unconsumed remainder of the script.  `none` means the
script ran out of (or supplied ill-matched) outcomes for this state. -/
def stepWizard (p : Params) (w : WizardM) (script : List Input) :
    Option (WizardM × Bool × Nat × List Input) :=
  match w.wizardState with
  | .idea_mode =>
    match script with
    | .imBack :: rest => some (w, false, 0, rest)
    | .imMode m :: rest =>
      let st : WizardState :=
        match m with
        | .has_idea => .description
        | .discover => .discovery_sector
        | .validate => .discovery_rough_idea
      some ({ w with ideaMode := m, wizardState := st }, false, 0, rest)
    | _ => none
  | .discovery_rough_idea =>
    match script with
    | .riBack :: rest => some ({ w with wizardState := .idea_mode }, false, 0, rest)
    | .riText s :: rest =>
      some ({ w with roughIdea := some s, wizardState := .discovery_sector }, false, 0, rest)
    | _ => none
  | .discovery_sector =>
    match script with
    | .dsBack :: rest =>
      let st : WizardState :=
        if w.ideaMode = .validate then .discovery_rough_idea else .idea_mode
      some ({ w with wizardState := st }, false, 0, rest)
    | .dsSector o :: rest =>
      some ({ w with discoverySector := o, wizardState := .discovery_research }, false, 0, rest)
    | _ => none
  | .discovery_research =>
    match script with
    | .dres r :: rest =>
      some ({ w with discoveredIdeas := r.ideas, wizardState := .discovery_results }, false, 0, rest)
    | _ => none
  | .discovery_results =>
    some ({ w with wizardState := .discovery_select }, false, 0, script)
  | .discovery_select =>
    match script with
    | .selBack :: rest => some ({ w with wizardState := .discovery_sector }, false, 0, rest)
    | .selMore :: rest => some ({ w with wizardState := .discovery_research }, false, 0, rest)
    | .selSector :: rest => some ({ w with wizardState := .discovery_sector }, false, 0, rest)
    | .selPick idea :: rest =>
      some ({ w with selectedIdea := some idea, wizardState := .discovery_confirm }, false, 0, rest)
    | _ => none
  | .discovery_confirm =>
    match w.selectedIdea with
    | none => some ({ w with wizardState := .discovery_select }, false, 0, script)
    | some idea =>
      match script with
      | .dcBack :: rest => some ({ w with wizardState := .discovery_results }, false, 0, rest)
      | .dcConfirm false :: rest =>
        some ({ w with wizardState := .discovery_select }, false, 0, rest)
      | .dcConfirm true :: rest =>
        let pn := inlineSanitizeIdeaName idea.name
        let desc := idea.description
        let ctx := applyDiscoveredIdea (createDefaultContext pn desc) idea
        some ({ w with projectName := pn, description := desc, context := ctx, wizardState := .name }, false, 0, rest)
      | _ => none
  | .name =>
    match script with
    | .nBack :: rest =>
      if w.ideaMode = .discover || w.ideaMode = .validate then
        some ({ w with wizardState := .discovery_results }, false, 0, rest)
      else
        some ({ w with wizardState := .idea_refinement, suggestedNames := [], foundCompetitors := [] }, false, 0, rest)
    | .nValue s :: rest =>
      let ctx0 := createDefaultContext s w.description
      let ctx :=
        match w.selectedIdea with
        | some idea => applyDiscoveredIdea ctx0 idea
        | none => ctx0
      some ({ w with projectName := s, context := ctx, wizardState := .project_config }, false, 0, rest)
    | _ => none
  | .description =>
    match script with
    | .dBack :: rest => some ({ w with wizardState := .idea_mode }, false, 0, rest)
    | .dValue s :: rest =>
      let st : WizardState := if p.claudeAvailable then .idea_refinement else .name
      some ({ w with description := s, wizardState := st }, false, 0, rest)
    | _ => none
  | .idea_refinement =>
    let next : WizardState := if p.claudeAvailable then .name_research else .name
    match script with
    | .irFail :: rest => some ({ w with wizardState := next }, false, 0, rest)
    | .irBack :: rest => some ({ w with wizardState := .description }, false, 0, rest)
    | .irSelected i :: rest =>
      some ({ w with description := i.summary, wizardState := next }, false, 0, rest)
    | .irCustom t :: rest =>
      some ({ w with description := t, wizardState := next }, false, 0, rest)
    | .irSkip :: rest => some ({ w with wizardState := next }, false, 0, rest)
    | _ => none
  | .name_research =>
    match script with
    | .nrFail :: rest =>
      some ({ w with suggestedNames := [], foundCompetitors := [], wizardState := .name }, false, 0, rest)
    | .nrOk names competitors :: rest =>
      some ({ w with foundCompetitors := competitors, suggestedNames := names, wizardState := .name }, false, 0, rest)
    | _ => none
  | .project_config =>
    match w.projectAnalysis, script with
    | none, .pcAnalyzed a :: .pcBack :: r2 =>
      some ({ w with projectAnalysis := some a, wizardState := .name }, false, 0, r2)
    | none, .pcAnalyzed a :: .pcConfig c :: r2 =>
      let ctx := { w.context with pricing := { w.context.pricing with type := c.pricing } }
      some ({ w with projectAnalysis := some a, projectConfig := some c, context := ctx, wizardState := .branding }, false, 0, r2)
    | none, _ => none
    | some _, .pcBack :: r2 => some ({ w with wizardState := .name }, false, 0, r2)
    | some _, .pcConfig c :: r2 =>
      let ctx := { w.context with pricing := { w.context.pricing with type := c.pricing } }
      some ({ w with projectConfig := some c, context := ctx, wizardState := .branding }, false, 0, r2)
    | some _, _ => none
  | .branding =>
    match script with
    | .brBack :: rest => some ({ w with wizardState := .project_config }, false, 0, rest)
    | .brValue domain tagline :: rest =>
      let ctx0 := { w.context with domain := some domain }
      let ctx :=
        if tagline ≠ "" then
          { ctx0 with content := { ctx0.content with tagline := tagline } }
        else ctx0
      some ({ w with brandingAnswers := some (domain, tagline), context := ctx, wizardState := .ai_content }, false, 0, rest)
    | _ => none
  | .ai_content =>
    if !w.aiContentGenerated && p.claudeAvailable && !p.skipAi then
      match script with
      | .acOk patch :: rest =>
        let ctx := { w.context with content := mergeContent w.context.content patch }
        some ({ w with context := ctx, aiContentGenerated := true, wizardState := .summary }, false, 1, rest)
      | .acParseFail :: rest =>
        some ({ w with wizardState := .summary }, false, 1, rest)
      | .acGenFail :: rest =>
        some ({ w with wizardState := .summary }, false, 1, rest)
      | _ => none
    else
      some ({ w with wizardState := .summary }, false, 0, script)
  | .summary =>
    if p.yes then
      some ({ w with wizardState := .project_location }, false, 0, script)
    else
      match script with
      | .sBack :: rest =>
        some ({ w with aiContentGenerated := false, wizardState := .branding }, false, 0, rest)
      | .sConfirm false :: rest => some (w, true, 0, rest)
      | .sConfirm true :: rest =>
        some ({ w with wizardState := .project_location }, false, 0, rest)
      | _ => none
  | .project_location =>
    if p.yes then
      some ({ w with projectPath := some (p.cwd ++ "/" ++ w.projectName), wizardState := .generate }, false, 0, script)
    else
      match script with
      | .plBack :: rest => some ({ w with wizardState := .summary }, false, 0, rest)
      | .plPath s :: rest =>
        some ({ w with projectPath := some s, wizardState := .generate }, false, 0, rest)
      | _ => none
  | .generate => some (w, false, 0, script)

/-- Result of driving the wizard loop. -/
structure RunResult where
  w : WizardM
  exited : Bool
  aiContentCalls : Nat
  visited : List WizardState
deriving DecidableEq

/-- Drive the wizard loop with a fuel bound: iterate `stepWizard` until
the state is `generate`, the handler returns, or the script or fuel runs
out.  `visited` records the state of every iteration that executed. -/
def runWizard (p : Params) : Nat → WizardM → List Input → RunResult
  | 0, w, _ => ⟨w, false, 0, []⟩
  | fuel + 1, w, script =>
    if w.wizardState = .generate then ⟨w, false, 0, []⟩
    else
      match stepWizard p w script with
      | none => ⟨w, false, 0, []⟩
      | some (w2, exited, calls, rest) =>
        if exited then ⟨w2, true, calls, [w.wizardState]⟩
        else
          let r := runWizard p fuel w2 rest
          ⟨r.w, r.exited, calls + r.aiContentCalls, w.wizardState :: r.visited⟩

/-! ## Step characterization lemmas -/

/-- A step makes an AI content generation call only from `ai_content`
with the `aiContentGenerated` flag unset (and AI available and not
skipped), and then it is exactly one call. -/
lemma stepWizard_calls {p : Params} {w : WizardM} {script : List Input}
    {w2 : WizardM} {ex : Bool} {calls : Nat} {rest : List Input}
    (h : stepWizard p w script = some (w2, ex, calls, rest)) (hc : calls ≠ 0) :
    w.wizardState = .ai_content ∧ w.aiContentGenerated = false ∧
      p.claudeAvailable = true ∧ p.skipAi = false ∧ calls = 1 := by
  unfold stepWizard at h
  split at h <;> (repeat' (split at h)) <;> simp_all

/-- A step never moves the wizard into `name_research` when the AI
assistant is unavailable: every edge into `name_research` is guarded by
`claudeAvailable`. -/
lemma stepWizard_no_research {p : Params} {w : WizardM} {script : List Input}
    {w2 : WizardM} {ex : Bool} {calls : Nat} {rest : List Input}
    (hp : p.claudeAvailable = false)
    (h : stepWizard p w script = some (w2, ex, calls, rest)) :
    w2.wizardState ≠ .name_research := by
  unfold stepWizard at h
  split at h <;> (repeat' (split at h)) <;> first
      | (obtain ⟨rfl, rfl, rfl, rfl⟩ := h; simp_all)
      | simp_all

/-- The only step that turns the `aiContentGenerated` flag off is the
go-back branch of the `summary` handler, which moves to `branding`. -/
lemma stepWizard_flag_clear {p : Params} {w : WizardM} {script : List Input}
    {w2 : WizardM} {ex : Bool} {calls : Nat} {rest : List Input}
    (h : stepWizard p w script = some (w2, ex, calls, rest))
    (h1 : w.aiContentGenerated = true) (h2 : w2.aiContentGenerated = false) :
    w.wizardState = .summary ∧ w2.wizardState = .branding := by
  unfold stepWizard at h
  split at h <;> (repeat' (split at h)) <;> first
      | (obtain ⟨rfl, rfl, rfl, rfl⟩ := h; simp_all)
      | simp_all

/-- With the AI assistant unavailable, no run ever makes an `ai_content`
generation call. -/
lemma runWizard_calls_noAI {p : Params} (hp : p.claudeAvailable = false) :
    ∀ (fuel : Nat) (w : WizardM) (script : List Input),
      (runWizard p fuel w script).aiContentCalls = 0 := by
  intro fuel
  induction fuel with
  | zero => intro w script; rfl
  | succ n ih =>
    intro w script
    rw [runWizard]
    by_cases hg : w.wizardState = .generate
    · rw [if_pos hg]
    · rw [if_neg hg]
      rcases hstep : stepWizard p w script with _ | ⟨w2, ex, calls, rest⟩
      · rfl
      · have hc : calls = 0 := by
          by_contra hcc
          have hh := stepWizard_calls hstep hcc
          rw [hh.2.2.1] at hp
          exact absurd hp (by simp)
        cases ex
        · simp only []
          simp [hc, ih w2 rest]
        · simp [hc]

/-- With the AI assistant unavailable, no run ever visits
`name_research` (unless it starts there). -/
lemma runWizard_visited_no_research {p : Params} (hp : p.claudeAvailable = false) :
    ∀ (fuel : Nat) (w : WizardM) (script : List Input),
      w.wizardState ≠ .name_research →
      WizardState.name_research ∉ (runWizard p fuel w script).visited := by
  intro fuel
  induction fuel with
  | zero => intro w script hw; simp [runWizard]
  | succ n ih =>
    intro w script hw
    rw [runWizard]
    by_cases hg : w.wizardState = .generate
    · rw [if_pos hg]; simp
    · rw [if_neg hg]
      rcases hstep : stepWizard p w script with _ | ⟨w2, ex, calls, rest⟩
      · simp
      · cases ex
        · simp only []
          intro hmem
          simp at hmem
          rcases hmem with hmem | hmem
          · exact hw hmem.symm
          · exact ih w2 rest (stepWizard_no_research hp hstep) hmem
        · intro hmem
          simp at hmem
          exact hw hmem.symm

/-! ## Concrete wizard runs used as evidence -/

/-- A run with no name argument and the Claude CLI unavailable. -/
def pNoAI : Params :=
  { nameArg := none, claudeAvailable := false, skipAi := false
    skipResearch := false, yes := false, cwd := "/work" }

/-- A run with no name argument and the Claude CLI available. -/
def pAI : Params := { pNoAI with claudeAvailable := true }

/-- A stand-in `analyzeProject` result. -/
def analysisStub : ProjectAnalysis :=
  { projectType := "Web Application", suggestedFeatures := [], pricingOptions := []
    questions := [], success := false, error := none }

/-- A stand-in `promptProjectConfig` answer. -/
def configStub : ProjectConfigAnswers :=
  { projectType := "Web Application", pricing := "freemium", features := []
    customAnswers := [] }

/-- A forward-only script for the AI-unavailable wizard. -/
def c2script : List Input :=
  [.nValue "proj", .pcAnalyzed analysisStub, .pcConfig configStub,
   .brValue "proj" "", .sConfirm true, .plPath "/tmp/proj"]

/-- A discovered idea whose audience derives `saasType := "tool"`. -/
def staleIdea : SaasIdea :=
  { id := "i1", name := "DevTool", tagline := "t"
    description := "A developer-focused tool", problemSolved := "p"
    targetAudience := ["developers"], coreFeatures := ["f"]
    marketOpportunity :=
      { score := 7, verdict := "strong", reasoning := "r", competitors := [], gap := "g" }
    difficulty :=
      { score := 2, label := "easy", reasoning := "r", estimatedHours := "4-8 hours"
        aiStrengths := [] }
    marketing :=
      { primaryChannels := [], launchStrategy := "l", estimatedCost := "free"
        timeToFirstUsers := "2-4 weeks", tactics := [] }
    income :=
      { model := "subscription", suggestedPricing := "$9", monthlyPotential := "$500"
        timeToFirstRevenue := none }
    sources := [] }

/-- Select and confirm a discovered idea, then back out of the discovery
flow and enter a manual description instead, stopping at `branding`. -/
def c3script : List Input :=
  [.imMode .discover, .dsSector none, .dres ⟨[staleIdea], false, none⟩,
   .selPick staleIdea, .dcConfirm true, .nBack, .selBack, .dsBack,
   .imMode .has_idea, .dValue "A manually typed replacement idea",
   .irSkip, .nrFail, .nValue "manualname",
   .pcAnalyzed analysisStub, .pcConfig configStub]

/-! ## Claim theorems -/

/-- C1 (counterexample): with the AI assistant unavailable and direct
idea entry (`ideaMode = has_idea`), `BACK` from `name` moves to
`idea_refinement`, not to `idea_mode` as the claim states. -/
theorem c1_counterexample :
    stepWizard pNoAI (initWizard pNoAI) [.nBack] =
      some ({ initWizard pNoAI with wizardState := .idea_refinement }, false, 0, []) ∧
    pNoAI.claudeAvailable = false ∧
    (initWizard pNoAI).ideaMode = .has_idea ∧
    WizardState.idea_refinement ≠ WizardState.idea_mode := by
  exact ⟨rfl, rfl, rfl, by decide⟩

/-- C1 (amended): on `BACK` from `name`, the next state is computed from
entry provenance: `discovery_results` when `ideaMode` is `discover` or
`validate`, and otherwise `idea_refinement` regardless of AI
availability, additionally clearing `suggestedNames` and
`foundCompetitors`. -/
theorem c1_name_back_provenance (p : Params) (w : WizardM) (rest : List Input)
    (h : w.wizardState = .name) :
    stepWizard p w (.nBack :: rest) =
      (if w.ideaMode = .discover || w.ideaMode = .validate then
        some ({ w with wizardState := .discovery_results }, false, 0, rest)
      else
        some ({ w with wizardState := .idea_refinement, suggestedNames := [], foundCompetitors := [] }, false, 0, rest)) := by
  simp only [stepWizard, h]

/-- C1 (witness): the amended transition evaluated in the discovery flow. -/
theorem c1_witness :
    stepWizard pAI { initWizard pAI with wizardState := .name, ideaMode := .discover }
        [.nBack] =
      some ({ initWizard pAI with wizardState := .discovery_results, ideaMode := .discover }, false, 0, []) := by
  have h := c1_name_back_provenance pAI
    { initWizard pAI with wizardState := .name, ideaMode := .discover } [] rfl
  simpa using h

/-- C2 (counterexample): with the AI assistant unavailable, the loop does
set the current state to `ai_content`: the plain forward run visits it. -/
theorem c2_counterexample :
    pNoAI.claudeAvailable = false ∧
    WizardState.ai_content ∈ (runWizard pNoAI 20 (initWizard pNoAI) c2script).visited := by
  refine ⟨rfl, ?_⟩
  have h : (runWizard pNoAI 20 (initWizard pNoAI) c2script).visited =
      [.name, .project_config, .branding, .ai_content, .summary, .project_location] := rfl
  rw [h]
  simp

/-- C2 (amended): with the AI assistant unavailable, every run makes zero
`ai_content` generation calls and never enters `name_research`; the
`ai_content` state is entered but only as a pass-through no-op, and the
forward run with no name argument reaches `generate` via
`name → project_config → branding → ai_content → summary → project_location`. -/
theorem c2_no_ai_degraded_path :
    (∀ (p : Params) (fuel : Nat) (w : WizardM) (script : List Input),
        p.claudeAvailable = false →
        (runWizard p fuel w script).aiContentCalls = 0 ∧
        (w.wizardState ≠ .name_research →
          WizardState.name_research ∉ (runWizard p fuel w script).visited)) ∧
    (runWizard pNoAI 20 (initWizard pNoAI) c2script).visited =
      [.name, .project_config, .branding, .ai_content, .summary, .project_location] ∧
    (runWizard pNoAI 20 (initWizard pNoAI) c2script).w.wizardState = .generate ∧
    (runWizard pNoAI 20 (initWizard pNoAI) c2script).aiContentCalls = 0 := by
  refine ⟨fun p fuel w script hp =>
    ⟨runWizard_calls_noAI hp fuel w script,
     fun hw => runWizard_visited_no_research hp fuel w script hw⟩, rfl, rfl, rfl⟩

/-- C2 (witness): the universal part evaluated on the concrete
AI-unavailable run. -/
theorem c2_witness :
    (runWizard pNoAI 20 (initWizard pNoAI) c2script).aiContentCalls = 0 ∧
    WizardState.name_research ∉ (runWizard pNoAI 20 (initWizard pNoAI) c2script).visited := by
  have h := c2_no_ai_degraded_path.1 pNoAI 20 (initWizard pNoAI) c2script rfl
  exact ⟨h.1, h.2 (by decide)⟩

/-- C3 (code bug): after selecting and confirming a discovered idea and
then backtracking out of the discovery flow to type a manual
description, the wizard reaches `branding` with the stale
`discoveredIdea` still in the context and the audience-derived
`saasType` still `"tool"` — the claim (and the spec) require them to be
empty/default. -/
theorem c3_stale_discovered_idea :
    (runWizard pAI 30 (initWizard pAI) c3script).w.wizardState = .branding ∧
    (runWizard pAI 30 (initWizard pAI) c3script).w.ideaMode = .has_idea ∧
    (runWizard pAI 30 (initWizard pAI) c3script).w.context.discoveredIdea = some staleIdea ∧
    (runWizard pAI 30 (initWizard pAI) c3script).w.context.saasType = "tool" ∧
    (createDefaultContext "manualname" "A manually typed replacement idea").discoveredIdea
      = none ∧
    (createDefaultContext "manualname" "A manually typed replacement idea").saasType
      = "b2b" := by
  exact ⟨rfl, rfl, rfl, rfl, rfl, rfl⟩

/-- C4: the `ai_content` state is idempotent per run: with the
`aiContentGenerated` flag set, the handler is a no-op that moves straight
to `summary` with zero generation calls; the flag is cleared only by the
summary go-back branch (which moves to `branding`); and a generation call
happens only with the flag unset. -/
theorem c4_ai_content_idempotence :
    (∀ (p : Params) (w : WizardM) (script : List Input),
        w.wizardState = .ai_content → w.aiContentGenerated = true →
        stepWizard p w script = some ({ w with wizardState := .summary }, false, 0, script)) ∧
    (∀ (p : Params) (w : WizardM) (script : List Input) (w2 : WizardM) (ex : Bool)
        (calls : Nat) (rest : List Input),
        stepWizard p w script = some (w2, ex, calls, rest) →
        w.aiContentGenerated = true → w2.aiContentGenerated = false →
        w.wizardState = .summary ∧ w2.wizardState = .branding) ∧
    (∀ (p : Params) (w : WizardM) (script : List Input) (w2 : WizardM) (ex : Bool)
        (calls : Nat) (rest : List Input),
        stepWizard p w script = some (w2, ex, calls, rest) → calls ≠ 0 →
        w.wizardState = .ai_content ∧ w.aiContentGenerated = false) := by
  refine ⟨?_, ?_, ?_⟩
  · intro p w script h1 h2
    simp [stepWizard, h1, h2]
  · intro p w script w2 ex calls rest h hf1 hf2
    exact stepWizard_flag_clear h hf1 hf2
  · intro p w script w2 ex calls rest h hc
    have hh := stepWizard_calls h hc
    exact ⟨hh.1, hh.2.1⟩

/-- C4 (witness): the no-op revisit, the flag reset at summary-back and
the guard on generation calls, all at concrete states. -/
theorem c4_witness :
    (stepWizard pAI { initWizard pAI with wizardState := .ai_content, aiContentGenerated := true } [] =
      some ({ initWizard pAI with wizardState := .summary, aiContentGenerated := true }, false, 0, [])) ∧
    (({ initWizard pAI with wizardState := .summary, aiContentGenerated := true } : WizardM).wizardState = .summary ∧
     ({ initWizard pAI with wizardState := .branding, aiContentGenerated := false } : WizardM).wizardState = .branding) ∧
    (({ initWizard pAI with wizardState := .ai_content } : WizardM).wizardState = .ai_content ∧
     ({ initWizard pAI with wizardState := .ai_content } : WizardM).aiContentGenerated = false) := by
  refine ⟨?_, ?_, ?_⟩
  · have h := c4_ai_content_idempotence.1 pAI
      { initWizard pAI with wizardState := .ai_content, aiContentGenerated := true } [] rfl rfl
    simpa using h
  · exact c4_ai_content_idempotence.2.1 pAI
      { initWizard pAI with wizardState := .summary, aiContentGenerated := true }
      [.sBack]
      { initWizard pAI with wizardState := .branding, aiContentGenerated := false }
      false 0 [] rfl rfl rfl
  · exact c4_ai_content_idempotence.2.2 pAI
      { initWizard pAI with wizardState := .ai_content } [.acGenFail]
      { initWizard pAI with wizardState := .summary } false 1 [] rfl (by decide)

/-- C5 (code bug): the child spawned by `claudeGenerateWithProgress` is
never registered with `trackProcess`, so it is alive but untracked, and
`killAllProcesses` leaves it running. -/
theorem c5_spawned_child_untracked :
    42 ∈ (spawnClaudeChild ⟨[], []⟩ 42).alive ∧
    42 ∉ (spawnClaudeChild ⟨[], []⟩ 42).tracked ∧
    42 ∈ (killAllProcesses (spawnClaudeChild ⟨[], []⟩ 42)).alive ∧
    (∀ w : ProcWorld, ∀ pid ∈ w.tracked, pid ∉ (killAllProcesses w).alive) := by
  refine ⟨by decide, by decide, by decide, ?_⟩
  intro w pid hmem hal
  rw [killAllProcesses] at hal
  simp only [List.mem_filter] at hal
  exact absurd hmem (by simpa using hal.2)

/-- C6: at `summary` (interactive mode), declining the generate
confirmation returns from the whole command without reaching `generate`,
while go-back moves to `branding` and clears `aiContentGenerated`. -/
theorem c6_summary_decline_and_back (p : Params) (w : WizardM) (rest : List Input)
    (hst : w.wizardState = .summary) (hy : p.yes = false) :
    stepWizard p w (.sConfirm false :: rest) = some (w, true, 0, rest) ∧
    stepWizard p w (.sBack :: rest) =
      some ({ w with aiContentGenerated := false, wizardState := .branding }, false, 0, rest) ∧
    (∀ fuel : Nat,
      runWizard p (fuel + 1) w (.sConfirm false :: rest) = ⟨w, true, 0, [.summary]⟩) := by
  have hstep : stepWizard p w (.sConfirm false :: rest) = some (w, true, 0, rest) := by
    simp [stepWizard, hst, hy]
  refine ⟨hstep, by simp [stepWizard, hst, hy], ?_⟩
  intro fuel
  rw [runWizard, if_neg (by simp [hst]), hstep]
  simp [hst]

/-- C6 (witness): the summary handler evaluated at a concrete state. -/
theorem c6_witness :
    stepWizard pAI { initWizard pAI with wizardState := .summary } [.sConfirm false] =
      some ({ initWizard pAI with wizardState := .summary }, true, 0, []) ∧
    stepWizard pAI { initWizard pAI with wizardState := .summary } [.sBack] =
      some ({ initWizard pAI with wizardState := .branding, aiContentGenerated := false }, false, 0, []) := by
  have h := c6_summary_decline_and_back pAI
    { initWizard pAI with wizardState := .summary } [] rfl rfl
  exact ⟨h.1, by simpa using h.2.1⟩

/-- C7: a cancel strictly less than 1000 ms after the previous one is
classified go-back; otherwise it is a hint that re-prompts without
exiting and resets the window to the current time, so the next cancel
within 1000 ms is go-back. -/
theorem c7_esc_window :
    (∀ now last : Nat, now - last < 1000 →
      checkEscForBack true now last = ⟨some .back, now⟩) ∧
    (∀ now last : Nat, 1000 ≤ now - last →
      checkEscForBack true now last = ⟨some .hint, now⟩) ∧
    (∀ (cg : Bool) (est now : Nat) (rest : List RawResponse), 1000 ≤ now - est →
      promptDescriptionLoop cg est (.cancel now :: rest) =
        promptDescriptionLoop cg now rest) ∧
    (∀ (est now : Nat) (rest : List RawResponse), now - est < 1000 →
      promptDescriptionLoop true est (.cancel now :: rest) = some (.back, now)) := by
  refine ⟨?_, ?_, ?_, ?_⟩
  · intro now last h
    simp [checkEscForBack, h]
  · intro now last h
    simp [checkEscForBack, Nat.not_lt.mpr h]
  · intro cg est now rest h
    rw [promptDescriptionLoop]
    simp [checkEscForBack, Nat.not_lt.mpr h]
  · intro est now rest h
    rw [promptDescriptionLoop]
    simp [checkEscForBack, h]

/-- C7 (witness): the window behaviour at concrete timestamps: a lone
cancel re-prompts; the follow-up cancel 500 ms later goes back. -/
theorem c7_witness :
    checkEscForBack true 5000 4500 = ⟨some .back, 5000⟩ ∧
    checkEscForBack true 5000 1000 = ⟨some .hint, 5000⟩ ∧
    promptDescriptionLoop true 0 [.cancel 2000, .cancel 2500] = some (.back, 2500) := by
  refine ⟨c7_esc_window.1 5000 4500 (by decide),
    c7_esc_window.2.1 5000 1000 (by decide), ?_⟩
  have h1 := c7_esc_window.2.2.1 true 0 2000 [RawResponse.cancel 2500] (by decide)
  have h2 := c7_esc_window.2.2.2 2000 2500 [] (by decide)
  exact h1.trans h2

/-- C8: the close handler rejects on non-zero exit without a parsed final
answer, with the captured stderr inside the message; otherwise it
resolves with the parsed final answer (stream or trailing buffer, else
the backward scan), and the raw stdout only when no result event was
parsed at all. -/
theorem c8_close_handler (parseLine : String → Option StreamEventShape)
    (code : Option Int) (stdout stderr : String) :
    (codeIsNonZero code = true → closeFinalResult parseLine stdout = "" →
      closeResolve parseLine code stdout stderr =
        .error ("Claude Code failed with code " ++ renderCode code ++ ": " ++ stderr) ∧
      stderr.data <:+
        ("Claude Code failed with code " ++ renderCode code ++ ": " ++ stderr).data) ∧
    (closeFinalResult parseLine stdout ≠ "" →
      closeResolve parseLine code stdout stderr = .ok (closeFinalResult parseLine stdout)) ∧
    (closeFinalResult parseLine stdout = "" → codeIsNonZero code = false →
      ∀ r, backwardScan parseLine stdout = some r →
        closeResolve parseLine code stdout stderr = .ok r) ∧
    (closeFinalResult parseLine stdout = "" → codeIsNonZero code = false →
      backwardScan parseLine stdout = none →
        closeResolve parseLine code stdout stderr = .ok stdout) := by
  refine ⟨?_, ?_, ?_, ?_⟩
  · intro hc hf
    constructor
    · rw [closeResolve]
      simp [hc, hf]
    · rw [String.data_append]
      exact List.suffix_append _ _
  · intro hf
    rw [closeResolve]
    simp [hf]
  · intro hf hc r hb
    rw [closeResolve]
    simp [hf, hc, hb]
  · intro hf hc hb
    rw [closeResolve]
    simp [hf, hc, hb]

/-- C8 (witness): a stream whose only complete line parses to a result
event resolves with that event's text. -/
theorem c8_witness :
    closeResolve (fun l => if l = "RES" then some ⟨true, some "answer"⟩ else none)
      (some 0) "RES\n" "boom" = .ok "answer" := by
  have h := (c8_close_handler
    (fun l => if l = "RES" then some ⟨true, some "answer"⟩ else none)
    (some 0) "RES\n" "boom").2.1 (by decide)
  have he : closeFinalResult
      (fun l => if l = "RES" then some ⟨true, some "answer"⟩ else none) "RES\n"
      = "answer" := rfl
  rw [he] at h
  exact h

/-- C9: every known failure mode of `discoverSaasIdeas` (CLI unavailable,
task error or timeout, unparseable response, missing or empty idea list)
yields the built-in fallback ideas with `isFallback` set and a non-empty
error message, and no exception escapes. -/
theorem c9_discovery_degrades (task : TaskOutcome)
    (extract : String → Option ExtractedIdeas) :
    DegradedResult (discoverSaasIdeas false task extract) ∧
    (∀ msg, msg ≠ "" →
      DegradedResult (discoverSaasIdeas true (.thrown msg) extract)) ∧
    (∀ resp, extract resp = none →
      DegradedResult (discoverSaasIdeas true (.ok resp) extract)) ∧
    (∀ resp parsed, extract resp = some parsed →
      (parsed.ideas = none ∨ parsed.ideas = some []) →
      DegradedResult (discoverSaasIdeas true (.ok resp) extract)) := by
  refine ⟨?_, ?_, ?_, ?_⟩
  · exact ⟨rfl, rfl, "Claude Code CLI not available", rfl, by decide⟩
  · intro msg hmsg
    exact ⟨rfl, rfl, msg, rfl, hmsg⟩
  · intro resp hresp
    refine ⟨?_, ?_, "Invalid AI response format", ?_, by decide⟩ <;>
      simp [discoverSaasIdeas, hresp]
  · intro resp parsed hresp hideas
    rcases hideas with hi | hi <;>
      refine ⟨?_, ?_, "No ideas found in response", ?_, by decide⟩ <;>
        simp [discoverSaasIdeas, hresp, hi]

/-- C9 (witness): the degraded contract evaluated for each failure mode
at concrete inputs. -/
theorem c9_witness :
    DegradedResult (discoverSaasIdeas false (.ok "x") (fun _ => none)) ∧
    DegradedResult (discoverSaasIdeas true (.thrown "Claude Code request timed out")
      (fun _ => none)) ∧
    DegradedResult (discoverSaasIdeas true (.ok "junk") (fun _ => none)) ∧
    DegradedResult (discoverSaasIdeas true (.ok "ok") (fun _ => some ⟨some []⟩)) := by
  refine ⟨(c9_discovery_degrades (.ok "x") (fun _ => none)).1,
    (c9_discovery_degrades (.ok "x") (fun _ => none)).2.1
      "Claude Code request timed out" (by decide),
    (c9_discovery_degrades (.ok "x") (fun _ => none)).2.2.1 "junk" rfl,
    (c9_discovery_degrades (.ok "x") (fun _ => some ⟨some []⟩)).2.2.2 "ok" ⟨some []⟩
      rfl (Or.inr rfl)⟩

/-- C10: `sanitizeProjectName` is idempotent, and every non-BACK value
returned by `promptName` is a sanitized name: only `[a-z0-9]` and single
dashes, no leading or trailing dash, hence it matches the
`ProjectContextSchema` pattern `^[a-z0-9-]+$` whenever non-empty. -/
theorem c10_sanitize_and_promptName :
    (∀ s, sanitizeProjectName (sanitizeProjectName s) = sanitizeProjectName s) ∧
    (∀ (names : List String) (cg : Bool) (est : Nat) (script : List RawResponse)
        (r : String) (est2 : Nat),
      promptName names cg est script = some (.value r, est2) →
      Sanitized r.data ∧ (r ≠ "" → namePatternOk r = true)) := by
  refine ⟨sanitize_idem, ?_⟩
  intro names cg est script r est2 h
  obtain ⟨s, rfl⟩ := promptName_value h
  exact ⟨sanitize_sanitized s,
    fun hne => sanitized_namePatternOk (sanitize_sanitized s) hne⟩

/-- C10 (witness): the prompt returning the sanitized form of
`"My App!"`, which matches the schema pattern. -/
theorem c10_witness :
    Sanitized (String.data "my-app") ∧ namePatternOk "my-app" = true := by
  have h := c10_sanitize_and_promptName.2 [] false 0 [RawResponse.entry "My App!"]
    "my-app" 0 rfl
  exact ⟨h.1, h.2 (by decide)⟩

end SaasFactory
